import Mathlib

/-
Shallow embedding of pricealert.py (price monitoring script).

Prices are modelled as exact decimal numbers (the type Dec below), the
value class of every float this program constructs.  Fallible Python code
(exceptions) is modelled with Except PyError.  The BeautifulSoup document tree is
modelled by the inductive type Node; the fetch environment maps a url to
the HTTP status, the raw body text and the tree that the tolerant HTML
parsing of the body would produce.
-/

namespace PriceAlert

/-- Split a character list at every occurrence of the separator character,
keeping empty segments; models the Python str.split method with a
one-character separator. -/
def splitOnChar (sep : Char) : List Char → List (List Char)
  | [] => [[]]
  | c :: rest =>
    if c == sep then [] :: splitOnChar sep rest
    else
      match splitOnChar sep rest with
      | [] => [[c]]
      | g :: gs => (c :: g) :: gs

/-- Value of a list of decimal digit characters read in base ten. -/
def digitsToNat (cs : List Char) : ℕ :=
  cs.foldl (fun a c => a * 10 + (c.toNat - 48)) 0

/-- An exact nonnegative decimal number num divided by ten to the pow,
the value class of the price floats this program handles (every float the
program builds is parsed from a decimal literal).  Values are kept
canonical by construction: the fractional part carries no trailing zeros,
so structural equality coincides with numeric equality. -/
structure Dec where
  num : ℕ
  pow : ℕ
deriving DecidableEq, Repr

/-- Numeric comparison of two decimals by cross multiplication. -/
instance : LT Dec := ⟨fun a b => a.num * 10 ^ b.pow < b.num * 10 ^ a.pow⟩

instance : DecidableRel (α := Dec) (· < ·) := fun a b =>
  Nat.decLt (a.num * 10 ^ b.pow) (b.num * 10 ^ a.pow)

/-- The rational value denoted by a decimal. -/
def Dec.val (d : Dec) : ℚ := (d.num : ℚ) / 10 ^ d.pow

/-- Drop trailing zero digits of a fractional digit list. -/
def stripZeros (l : List Char) : List Char :=
  (l.reverse.dropWhile (fun c => c == '0')).reverse

/-- Model of the Python float constructor on the strings this program feeds
to it: unsigned decimal literals made of digit characters and at most one
dot, with at least one digit.  Any other string raises ValueError, which is
modelled by none. -/
def parseFloat (s : String) : Option Dec :=
  let cs := s.toList
  if cs.isEmpty then none
  else if !(cs.all fun c => c.isDigit || c == '.') then none
  else if 1 < cs.countP (fun c => c == '.') then none
  else if !(cs.any Char.isDigit) then none
  else
    match splitOnChar '.' cs with
    | [a] => some ⟨digitsToNat a, 0⟩
    | [a, b] =>
      let f := stripZeros b
      some ⟨digitsToNat a * 10 ^ f.length + digitsToNat f, f.length⟩
    | _ => none

/-- Document tree produced by the tolerant HTML parsing: an element with a
tag name, an attribute list and children, or a text node. -/
inductive Node where
  | elem (tag : String) (attrs : List (String × String)) (children : List Node)
  | text (s : String)

/-- Attribute lookup, modelling the get method of a tag; text nodes carry
no attributes. -/
def Node.getAttr : Node → String → Option String
  | .elem _ attrs _, key => attrs.lookup key
  | .text _, _ => none

/-- Direct children of a node. -/
def Node.children : Node → List Node
  | .elem _ _ cs => cs
  | .text _ => []

mutual

/-- Concatenated text of all descendant text nodes, modelling the text
attribute of a tag. -/
def Node.getText : Node → String
  | .text s => s
  | .elem _ _ cs => getTextList cs

def getTextList : List Node → String
  | [] => ""
  | n :: ns => n.getText ++ getTextList ns

end

mutual

/-- All descendants of a node in document (preorder) order, the order in
which the find method scans them. -/
def Node.descendants : Node → List Node
  | .text _ => []
  | .elem _ _ cs => descendantsList cs

def descendantsList : List Node → List Node
  | [] => []
  | n :: ns => n :: (n.descendants ++ descendantsList ns)

end

/-- A search criterion: exact attribute equality (keyword arguments such as
property=... or itemprop=...) or class membership (the class keyword, which
matches when the sought class occurs in the whitespace-separated class
list). -/
inductive AttrFilter where
  | attrEq (key val : String)
  | hasClass (c : String)

/-- Whether a node matches a tag-name criterion and all attribute criteria;
text nodes never match. -/
def Node.matchesAll (n : Node) (tagq : Option String) (fs : List AttrFilter) : Bool :=
  match n with
  | .text _ => false
  | .elem t _ _ =>
    (match tagq with | none => true | some t0 => t == t0) &&
    fs.all fun f =>
      match f with
      | .attrEq k v => n.getAttr k == some v
      | .hasClass c =>
        match n.getAttr "class" with
        | some cv => (splitOnChar ' ' cv.toList).contains c.toList
        | none => false

/-- The find method: first matching descendant in document order. -/
def Node.find (n : Node) (tagq : Option String) (fs : List AttrFilter) : Option Node :=
  n.descendants.find? (fun m => m.matchesAll tagq fs)

/-- The find method with recursive=False: first matching direct child. -/
def Node.findChild (n : Node) (tagq : Option String) (fs : List AttrFilter) : Option Node :=
  n.children.find? (fun m => m.matchesAll tagq fs)

/-- One HTTP response: status code, body text, and the tree the tolerant
HTML parsing of the body produces. -/
structure HttpResponse where
  status : ℕ
  body : String
  dom : Node

/-- Fetch environment: the response each url yields. -/
def Env := String → HttpResponse

/-- Python exceptions that can surface in this program. -/
inductive PyError where
  | httpError (status : ℕ)
  | attributeError
  | valueError
  | keyError
  | indexError
  | typeError
  | assertionError
deriving DecidableEq, Repr

deriving instance DecidableEq for Except

/-- The fetch function without the raw flag: raise_for_status raises
HTTPError exactly for status codes in the 4xx and 5xx ranges, otherwise
the body is parsed and the document tree returned. -/
def fetch (env : Env) (url : String) : Except PyError Node :=
  let r := env url
  if 400 ≤ r.status ∧ r.status < 600 then .error (.httpError r.status)
  else .ok r.dom

/-- The fetch function with raw=True: same status check, but the unparsed
body text is returned. -/
def fetchRaw (env : Env) (url : String) : Except PyError String :=
  let r := env url
  if 400 ≤ r.status ∧ r.status < 600 then .error (.httpError r.status)
  else .ok r.body

/-- The check_galaxus extractor: current price from the content attribute
of the meta element with property product:price:amount (a missing element
raises AttributeError, a missing attribute makes float raise TypeError);
regular price likewise from the meta element with property
og:price:standard_amount when that element is found (a found tag is always
truthy), otherwise absent. -/
def check_galaxus (env : Env) (url : String) : Except PyError (Dec × Option Dec) :=
  match fetch env url with
  | .error e => .error e
  | .ok soup =>
    match soup.find (some "meta") [.attrEq "property" "product:price:amount"] with
    | none => .error .attributeError
    | some m =>
      match m.getAttr "content" with
      | none => .error .typeError
      | some c =>
        match parseFloat c with
        | none => .error .valueError
        | some current =>
          match soup.find (some "meta") [.attrEq "property" "og:price:standard_amount"] with
          | none => .ok (current, none)
          | some sm =>
            match sm.getAttr "content" with
            | none => .error .typeError
            | some rc =>
              match parseFloat rc with
              | none => .error .valueError
              | some regular => .ok (current, some regular)

/-- The check_baechli extractor: current price from the same meta element
as check_galaxus; the regular price is always absent. -/
def check_baechli (env : Env) (url : String) : Except PyError (Dec × Option Dec) :=
  match fetch env url with
  | .error e => .error e
  | .ok soup =>
    match soup.find (some "meta") [.attrEq "property" "product:price:amount"] with
    | none => .error .attributeError
    | some m =>
      match m.getAttr "content" with
      | none => .error .typeError
      | some c =>
        match parseFloat c with
        | none => .error .valueError
        | some current => .ok (current, none)

/-- The non-breaking space character used as currency separator. -/
def nbsp : Char := '\xA0'

/-- The inner helper of check_intersport: find the descendant with class
amount, split its text at the non-breaking space, assert that the part
before the separator is exactly CHF, then parse the part after it. -/
def getPrice (element : Node) : Except PyError Dec :=
  match element.find none [.hasClass "amount"] with
  | none => .error .attributeError
  | some amt =>
    let parts := splitOnChar nbsp (amt.getText).toList
    if (parts.headD []) ≠ "CHF".toList then .error .assertionError
    else
      match parts.get? 1 with
      | none => .error .indexError
      | some p =>
        match parseFloat (String.mk p) with
        | none => .error .valueError
        | some q => .ok q

/-- The check_intersport extractor: inside the div with class
entry-summary, locate the element with class price; among its direct
children look for a del element and an ins element.  If both are found,
the ins amount is current and the del amount is regular (the current
amount is evaluated first, as in the source tuple); otherwise the amount
found under the price element itself is current and regular is absent. -/
def check_intersport (env : Env) (url : String) : Except PyError (Dec × Option Dec) :=
  match fetch env url with
  | .error e => .error e
  | .ok soup =>
    match soup.find (some "div") [.hasClass "entry-summary"] with
    | none => .error .attributeError
    | some summary =>
      match summary.find none [.hasClass "price"] with
      | none => .error .attributeError
      | some prices =>
        match prices.findChild (some "del") [], prices.findChild (some "ins") [] with
        | some regular, some current =>
          match getPrice current with
          | .error e => .error e
          | .ok qc =>
            match getPrice regular with
            | .error e => .error e
            | .ok qr => .ok (qc, some qr)
        | some _, none =>
          match getPrice prices with
          | .error e => .error e
          | .ok q => .ok (q, none)
        | none, _ =>
          match getPrice prices with
          | .error e => .error e
          | .ok q => .ok (q, none)

/-- First maximal run of digit or dot characters in a string, modelling
taking the first regular-expression match for a digits-and-dots character
class; none when no such character occurs (indexing the empty match list
raises IndexError). -/
def firstDigitRun (s : String) : Option String :=
  let isNum : Char → Bool := fun c => c.isDigit || c == '.'
  let run := (s.toList.dropWhile (fun c => !isNum c)).takeWhile isNum
  if run.isEmpty then none else some (String.mk run)

/-- The check_primal extractor: current price from the content attribute
of the meta element with itemprop price; if a span with class
price--line-through exists, its regular price is the first run of digits
and dots in that element text, parsed as a decimal. -/
def check_primal (env : Env) (url : String) : Except PyError (Dec × Option Dec) :=
  match fetch env url with
  | .error e => .error e
  | .ok soup =>
    match soup.find (some "meta") [.attrEq "itemprop" "price"] with
    | none => .error .attributeError
    | some m =>
      match m.getAttr "content" with
      | none => .error .typeError
      | some c =>
        match parseFloat c with
        | none => .error .valueError
        | some current =>
          match soup.find (some "span") [.hasClass "price--line-through"] with
          | none => .ok (current, none)
          | some regEl =>
            match firstDigitRun regEl.getText with
            | none => .error .indexError
            | some rs =>
              match parseFloat rs with
              | none => .error .valueError
              | some regular => .ok (current, some regular)

/-- ASCII whitespace characters matched by the whitespace class of the
regular-expression engine. -/
def isPySpace (c : Char) : Bool :=
  c == ' ' || c == '\t' || c == '\n' || c == '\x0b' || c == '\x0c' || c == '\r'

/-- Drop a literal from the front of a character list, or fail. -/
def afterLit (lit : String) (cs : List Char) : Option (List Char) :=
  if lit.toList.isPrefixOf cs then some (cs.drop lit.toList.length) else none

/-- Model of matching one line against the anchored pattern of
check_transa: optional leading whitespace, a key that is base or promo,
the literal text colon-space-quote-CHF-space, an amount made of non-quote
characters, then quote, comma and end of line.  Returns the key and the
raw amount text on success. -/
def matchPriceLine (line : String) : Option (String × String) :=
  let rest := line.toList.dropWhile isPySpace
  let tryKey : String → Option (String × String) := fun key =>
    match afterLit (key ++ ": \x27CHF ") rest with
    | none => none
    | some r1 =>
      let amt := r1.takeWhile (fun c => c != '\x27')
      let r2 := r1.drop amt.length
      if r2 = ['\x27', ','] then some (key, String.mk amt) else none
  match tryKey "base" with
  | some r => some r
  | none => tryKey "promo"

/-- Split a text into lines at newline characters, without a trailing
empty line, modelling the splitlines method on the texts this program
scans (which use plain newline separators). -/
def splitLines (s : String) : List String :=
  let parts := (splitOnChar '\n' s.toList).map String.mk
  if parts.getLast? = some "" then parts.dropLast else parts

/-- Store a key-value pair in an association list, replacing an existing
binding for the key, modelling assignment into a Python dict. -/
def updateAssoc (d : List (String × Dec)) (k : String) (v : Dec) : List (String × Dec) :=
  if d.any (fun kv => kv.1 == k) then
    d.map (fun kv => if kv.1 == k then (k, v) else kv)
  else d ++ [(k, v)]

/-- The loop of check_transa over the matched lines: parse each amount
with float (ValueError aborts) and store it under its key. -/
def buildPrices : List (String × String) → List (String × Dec) → Except PyError (List (String × Dec))
  | [], acc => .ok acc
  | (k, v) :: rest, acc =>
    match parseFloat v with
    | none => .error .valueError
    | some q => buildPrices rest (updateAssoc acc k q)

/-- The check_transa extractor: fetch the raw text, match every line
against the price pattern, build the key-to-amount mapping, then return
the promo value (a missing promo key raises KeyError) together with the
base value when present. -/
def check_transa (env : Env) (url : String) : Except PyError (Dec × Option Dec) :=
  match fetchRaw env url with
  | .error e => .error e
  | .ok text =>
    match buildPrices ((splitLines text).filterMap matchPriceLine) [] with
    | .error e => .error e
    | .ok prices =>
      match prices.lookup "promo" with
      | none => .error .keyError
      | some p => .ok (p, prices.lookup "base")

/-- Identifiers of the five extractor functions defined by the module. -/
inductive CheckFnId where
  | galaxus | baechli | intersport | primal | transa
deriving DecidableEq, Repr

/-- A value bound at module level: one of the five extractor functions, or
any other module-level binding (imports, the user agent constant, the
fetch helper, the loader and main themselves, interpreter dunders).  Such
bindings resolve successfully but are not extractors. -/
inductive GlobalValue where
  | checkFn (f : CheckFnId)
  | otherGlobal (what : String)
deriving DecidableEq, Repr

/-- The module-level namespace of the script, as the globals dictionary
exposes it: every top-level import, constant, function definition of the
file, plus the interpreter-provided dunder entries. -/
def moduleGlobals : List (String × GlobalValue) :=
  [("__name__", .otherGlobal "dunder"),
   ("__doc__", .otherGlobal "dunder"),
   ("__package__", .otherGlobal "dunder"),
   ("__loader__", .otherGlobal "dunder"),
   ("__spec__", .otherGlobal "dunder"),
   ("__file__", .otherGlobal "dunder"),
   ("__builtins__", .otherGlobal "dunder"),
   ("re", .otherGlobal "import"),
   ("sys", .otherGlobal "import"),
   ("Optional", .otherGlobal "import"),
   ("Tuple", .otherGlobal "import"),
   ("BeautifulSoup", .otherGlobal "import"),
   ("docopt", .otherGlobal "import"),
   ("requests", .otherGlobal "import"),
   ("yaml", .otherGlobal "import"),
   ("USER_AGENT", .otherGlobal "constant"),
   ("fetch", .otherGlobal "function"),
   ("check_galaxus", .checkFn .galaxus),
   ("check_baechli", .checkFn .baechli),
   ("check_intersport", .checkFn .intersport),
   ("check_primal", .checkFn .primal),
   ("check_transa", .checkFn .transa),
   ("_load_check_fn", .otherGlobal "function"),
   ("main", .otherGlobal "function")]

/-- The names of the five registered extractors. -/
def extractorNames : List String :=
  ["check_galaxus", "check_baechli", "check_intersport", "check_primal", "check_transa"]

/-- The check_func field of a shop entry: the configured name string, or,
after the loader ran on the entry, the resolved module-level value. -/
inductive FuncField where
  | name (s : String)
  | func (v : GlobalValue)
deriving DecidableEq, Repr

/-- One shop entry of the configuration: display name and check_func
field. -/
structure Shop where
  name : String
  check_func : FuncField
deriving DecidableEq, Repr

/-- The get method of the globals dictionary applied to the check_func
field: the dictionary is keyed by strings, so a string is looked up by
name, while a function value stored by a previous load is never a key and
yields None. -/
def globalsGet : FuncField → Option GlobalValue
  | .name s => moduleGlobals.lookup s
  | .func _ => none

/-- The loader of a check function: look the check_func field up in the
module globals; None raises ValueError, otherwise the field of the shop
entry is overwritten in place with the resolved value and the same entry
is returned. -/
def load_check_fn (shop : Shop) : Except PyError Shop :=
  match globalsGet shop.check_func with
  | none => .error .valueError
  | some f => .ok { shop with check_func := .func f }

/-- Dispatch on a resolved module-level value called with a url.  Calling
one of the five extractors runs it; using any other module value as a
check function fails at call or use time with a TypeError-like defect,
modelled as typeError. -/
def callGlobal (env : Env) : GlobalValue → String → Except PyError (Dec × Option Dec)
  | .checkFn .galaxus, url => check_galaxus env url
  | .checkFn .baechli, url => check_baechli env url
  | .checkFn .intersport, url => check_intersport env url
  | .checkFn .primal, url => check_primal env url
  | .checkFn .transa, url => check_transa env url
  | .otherGlobal _, _ => .error .typeError

/-- Calling the check_func field of a shop entry: after loading it holds a
resolved value; calling a raw name string would be a TypeError. -/
def callField (env : Env) : FuncField → String → Except PyError (Dec × Option Dec)
  | .func v, url => callGlobal env v url
  | .name _, _ => .error .typeError

/-- One product entry: display name, and the ordered mapping from shop
identifier to url. -/
structure Product where
  name : String
  shops : List (String × String)
deriving DecidableEq, Repr

/-- The configuration: the shops mapping and the product list. -/
structure Config where
  shops : List (String × Shop)
  products : List Product
deriving DecidableEq, Repr

/-- Result of a run of main: the text printed so far, the uncaught
exception if one aborted the run, and the configuration object as it is
after the run (the loader mutates shop entries in place). -/
structure RunResult where
  output : String
  error : Option PyError
  config : Config
deriving DecidableEq, Repr

/-- Two decimal digits with a leading zero. -/
def padTwo (k : ℕ) : String :=
  if k < 10 then "0" ++ toString k else toString k

/-- Fixed-point formatting with two decimals of a nonnegative price,
modelling the format specification .2f: round to cents (the floor of the
value times one hundred plus one half, computed exactly on the decimal)
and print with exactly two fractional digits.  The prices handled by this
program are exact multiples of a cent, where every rounding mode
agrees. -/
def format2f (q : Dec) : String :=
  let cents := (200 * q.num + 10 ^ q.pow) / (2 * 10 ^ q.pow)
  toString (cents / 100) ++ "." ++ padTwo (cents % 100)

/-- The shop-loading comprehension at the start of main: run the loader
over the entries in order.  The returned list is both the registry used by
the reporting loop and the post-run state of the shops mapping of the
configuration, whose entries the loader mutated in place; on a resolution
failure the comprehension raises before touching the failing entry or the
remaining ones. -/
def loadShops : List (String × Shop) → (List (String × Shop)) × Option PyError
  | [] => ([], none)
  | (k, s) :: rest =>
    match load_check_fn s with
    | .error e => ((k, s) :: rest, some e)
    | .ok s2 =>
      let (r, err) := loadShops rest
      ((k, s2) :: r, err)

/-- The inner reporting loop of main over the shop urls of one product:
look the shop up, call its check function, print the display name and the
current price with two decimals without a newline; when no regular price
is present finish the line, otherwise assert regular greater than current
(failure aborts with the unfinished line already printed) and append the
statt part.  Output is accumulated; the first exception stops the loop. -/
def runShops (env : Env) (shops : List (String × Shop)) :
    List (String × String) → String → String × Option PyError
  | [], out => (out, none)
  | (shopId, url) :: rest, out =>
    match shops.lookup shopId with
    | none => (out, some .keyError)
    | some shop =>
      match callField env shop.check_func url with
      | .error e => (out, some e)
      | .ok prices =>
        let line := "  " ++ shop.name ++ ": " ++ format2f prices.1 ++ " CHF"
        match prices.2 with
        | none => runShops env shops rest (out ++ line ++ "\n")
        | some r =>
          if r > prices.1 then
            runShops env shops rest
              (out ++ line ++ " (statt " ++ format2f r ++ " CHF)\n")
          else (out ++ line, some .assertionError)

/-- The outer reporting loop of main over the products: print the Checking
header, run the shop loop, then print the blank separator line after the
shop results of the product. -/
def runProducts (env : Env) (shops : List (String × Shop)) :
    List Product → String → String × Option PyError
  | [], out => (out, none)
  | p :: rest, out =>
    match runShops env shops p.shops (out ++ "Checking " ++ p.name ++ ":\n") with
    | (out2, some e) => (out2, some e)
    | (out2, none) => runProducts env shops rest (out2 ++ "\n")

/-- The main function: build the shop registry by loading every check
function (a failure aborts before any output and before any fetch), then
run the reporting loop.  The configuration in the result reflects the
in-place mutation of its shop entries by the loader. -/
def main (env : Env) (config : Config) : RunResult :=
  match loadShops config.shops with
  | (loaded, some e) => { output := "", error := some e, config := { config with shops := loaded } }
  | (loaded, none) =>
    let (out, err) := runProducts env loaded config.products ""
    { output := out, error := err, config := { config with shops := loaded } }

/-- Environment in which every url answers with status 200 and the given
document tree. -/
def envDoc (d : Node) : Env := fun _ => ⟨200, "", d⟩

/-- Environment in which every url answers with status 200 and the given
raw body text; the tree field is the trivial parse, unused by raw
fetches. -/
def envRaw (t : String) : Env := fun _ => ⟨200, t, .elem "[document]" [] []⟩

/-- Environment answering with a not-modified status, a non-2xx status
outside the 4xx and 5xx ranges. -/
def env304 : Env := fun _ => ⟨304, "", .elem "[document]" [] []⟩

/-- Page with both price meta elements, current 49 and standard amount
72.4, following the docstring of check_galaxus. -/
def galaxusDoc : Node :=
  .elem "[document]" [] [.elem "html" [] [.elem "head" [] [
    .elem "meta" [("content", "49"), ("property", "product:price:amount")] [],
    .elem "meta" [("content", "72.4"), ("property", "og:price:standard_amount")] []]]]

/-- Page with only the current-price meta element. -/
def galaxusDocNoStd : Node :=
  .elem "[document]" [] [.elem "html" [] [.elem "head" [] [
    .elem "meta" [("content", "49"), ("property", "product:price:amount")] []]]]

/-- Page whose standard amount 20 is not greater than the current price
49, violating the pricing invariant. -/
def galaxusDocBad : Node :=
  .elem "[document]" [] [.elem "html" [] [.elem "head" [] [
    .elem "meta" [("content", "49"), ("property", "product:price:amount")] [],
    .elem "meta" [("content", "20"), ("property", "og:price:standard_amount")] []]]]

/-- A woocommerce amount span: currency symbol child followed by the
non-breaking space and the amount, as in the docstring of
check_intersport. -/
def amountSpan (amt : String) : Node :=
  .elem "span" [("class", "woocommerce-Price-amount amount")]
    [.elem "span" [("class", "woocommerce-Price-currencySymbol")] [.text "CHF"],
     .text ("\xA0" ++ amt)]

/-- The del element of the rebate page, holding the regular price. -/
def delNodeRebate : Node := .elem "del" [] [amountSpan "379.00"]

/-- The ins element of the rebate page, holding the current price. -/
def insNodeRebate : Node := .elem "ins" [] [amountSpan "299.90"]

/-- The price container of the rebate page. -/
def pricesRebate : Node :=
  .elem "p" [("class", "price")] [delNodeRebate, insNodeRebate]

/-- The summary container of the rebate page. -/
def summaryRebate : Node :=
  .elem "div" [("class", "summary entry-summary")]
    [.elem "h1" [("class", "product_title entry-title")] [.text "Snowshoe"],
     pricesRebate]

/-- Rebate page: the price container has a del element (regular 379.00)
and an ins element (current 299.90). -/
def interDocRebate : Node := .elem "[document]" [] [summaryRebate]

/-- The price container of the page without rebate. -/
def pricesSingle : Node := .elem "p" [("class", "price")] [amountSpan "29.00"]

/-- The summary container of the page without rebate. -/
def summarySingle : Node :=
  .elem "div" [("class", "summary entry-summary")]
    [.elem "h1" [("class", "product_title entry-title")] [.text "Snowshoe"],
     pricesSingle]

/-- Page without rebate: the price container holds a single amount span
with price 29.00 and no del or ins pair. -/
def interDocSingle : Node := .elem "[document]" [] [summarySingle]

/-- An amount span whose currency part before the non-breaking space is
EUR rather than CHF. -/
def badAmountSpan : Node :=
  .elem "span" [("class", "amount")] [.text ("EUR" ++ "\xA0" ++ "123.00")]

/-- A price element containing the EUR amount span. -/
def badCurrencyElem : Node :=
  .elem "p" [("class", "price")] [badAmountSpan]

/-- Raw page text with a matching promo line and a matching base line. -/
def transaPromoBase : String :=
  "  promo: \x27CHF 629.90\x27,\n  base: \x27CHF 899.90\x27,"

/-- Raw page text with an empty-string base line, which does not match
the pattern, and a matching promo line. -/
def transaPromoEmptyBase : String :=
  "  base: \x27\x27,\n  promo: \x27CHF 629.90\x27,"

/-- Raw page text with a matching base line but no promo line at all. -/
def transaNoPromo : String :=
  "  base: \x27CHF 899.90\x27,"

/-- A demo url. -/
def demoUrl : String := "https://example.test/widget"

/-- A registry as it looks after loading: the galaxus extractor already
resolved. -/
def demoShops : List (String × Shop) :=
  [("s1", ⟨"Galaxus", .func (.checkFn .galaxus)⟩)]

/-- One-shop one-product configuration using the galaxus extractor by
name. -/
def config1 : Config :=
  ⟨[("s1", ⟨"Galaxus", .name "check_galaxus"⟩)], [⟨"Widget", [("s1", demoUrl)]⟩]⟩

/-- Configuration whose shop names a check function that is not bound at
module level. -/
def configBadName : Config :=
  ⟨[("s1", ⟨"Galaxus", .name "check_foo"⟩)], [⟨"Widget", [("s1", demoUrl)]⟩]⟩

/-! Helper lemmas shared by the claim theorems. -/

theorem string_append_assoc (a b c : String) : a ++ b ++ c = a ++ (b ++ c) := by
  cases a
  cases b
  cases c
  show String.mk _ = String.mk _
  simp [String.append, List.append_assoc]

theorem splitOnChar_no_sep (sep : Char) (l : List Char) (h : ∀ x ∈ l, x ≠ sep) :
    splitOnChar sep l = [l] := by
  induction l with
  | nil => rfl
  | cons c rest ih =>
    have hc : (c == sep) = false := by
      simp only [beq_eq_false_iff_ne]
      exact h c (by simp)
    have hrest : splitOnChar sep rest = [rest] := ih (fun x hx => h x (by simp [hx]))
    simp [splitOnChar, hc, hrest]

theorem splitOnChar_sep_append (sep : Char) (l1 l2 : List Char) (h : ∀ x ∈ l1, x ≠ sep) :
    splitOnChar sep (l1 ++ sep :: l2) = l1 :: splitOnChar sep l2 := by
  induction l1 with
  | nil => simp [splitOnChar]
  | cons c rest ih =>
    have hc : (c == sep) = false := by
      simp only [beq_eq_false_iff_ne]
      exact h c (by simp)
    have hrest := ih (fun x hx => h x (by simp [hx]))
    simp [splitOnChar, hc, hrest]

theorem getPrice_chf (el a : Node) (amt : List Char) (q : Dec)
    (hfind : el.find none [.hasClass "amount"] = some a)
    (htext : a.getText.toList = "CHF".toList ++ nbsp :: amt)
    (hno : ∀ x ∈ amt, x ≠ nbsp)
    (hq : parseFloat (String.mk amt) = some q) :
    getPrice el = .ok q := by
  have hsplit : splitOnChar nbsp a.getText.toList = ["CHF".toList, amt] := by
    rw [htext, splitOnChar_sep_append _ _ _ (by decide), splitOnChar_no_sep _ _ hno]
  simp only [getPrice, hfind]
  rw [hsplit]
  simp [hq]

theorem lookup_map_update (k k2 : String) (v : Dec) (h : k ≠ k2) :
    ∀ d : List (String × Dec),
      (d.map fun kv => if kv.1 == k then (k, v) else kv).lookup k2 = d.lookup k2 := by
  have hk2 : (k2 == k) = false := by
    simp only [beq_eq_false_iff_ne]
    exact fun e => h e.symm
  intro d
  induction d with
  | nil => rfl
  | cons kv rest ih =>
    obtain ⟨a, b⟩ := kv
    by_cases ha : a = k
    · subst ha
      simp only [List.map]
      rw [if_pos (by simp : ((a, b).1 == a) = true)]
      simp [List.lookup, hk2]
      simpa using ih
    · simp only [List.map]
      rw [if_neg (by simp [ha] : ¬((a, b).1 == k) = true)]
      cases hka : k2 == a
      · simp [List.lookup, hka]
        simpa using ih
      · simp [List.lookup, hka]

theorem lookup_append_single (k k2 : String) (v : Dec) (h : k ≠ k2) :
    ∀ d : List (String × Dec), (d ++ [(k, v)]).lookup k2 = d.lookup k2 := by
  have hk2 : (k2 == k) = false := by
    simp only [beq_eq_false_iff_ne]
    exact fun e => h e.symm
  intro d
  induction d with
  | nil => simp [List.lookup, hk2]
  | cons kv rest ih =>
    obtain ⟨a, b⟩ := kv
    simp [List.lookup, ih]

theorem lookup_updateAssoc_ne (d : List (String × Dec)) (k : String) (v : Dec)
    (k2 : String) (h : k ≠ k2) :
    (updateAssoc d k v).lookup k2 = d.lookup k2 := by
  unfold updateAssoc
  split
  · exact lookup_map_update k k2 v h d
  · exact lookup_append_single k k2 v h d

theorem buildPrices_no_promo (ms : List (String × String)) :
    ∀ acc d, (∀ p ∈ ms, p.1 ≠ "promo") → buildPrices ms acc = .ok d →
      d.lookup "promo" = acc.lookup "promo" := by
  induction ms with
  | nil =>
    intro acc d _ hb
    simp only [buildPrices] at hb
    cases hb
    rfl
  | cons p rest ih =>
    intro acc d h hb
    obtain ⟨k, v⟩ := p
    simp only [buildPrices] at hb
    cases hv : parseFloat v with
    | none => rw [hv] at hb; cases hb
    | some q =>
      rw [hv] at hb
      have := ih (updateAssoc acc k q) d (fun p hp => h p (by simp [hp])) hb
      rw [this, lookup_updateAssoc_ne _ _ _ _ (h (k, v) (by simp))]

theorem load_check_fn_ok (s s2 : Shop) (h : load_check_fn s = .ok s2) :
    s2.name = s.name ∧ ∃ v, s2.check_func = .func v := by
  unfold load_check_fn at h
  cases hg : globalsGet s.check_func with
  | none => rw [hg] at h; cases h
  | some f =>
    rw [hg] at h
    cases h
    exact ⟨rfl, f, rfl⟩

theorem loadShops_names (l : List (String × Shop)) :
    ((loadShops l).1.map fun kv => (kv.1, kv.2.name)) = l.map fun kv => (kv.1, kv.2.name) := by
  induction l with
  | nil => rfl
  | cons kv rest ih =>
    obtain ⟨k, s⟩ := kv
    simp only [loadShops]
    cases hl : load_check_fn s with
    | error e => simp
    | ok s2 =>
      have hn := (load_check_fn_ok s s2 hl).1
      simp [hn, ih]

theorem loadShops_success_cons (k : String) (s : Shop) (rest l2 : List (String × Shop))
    (h : loadShops ((k, s) :: rest) = (l2, none)) :
    ∃ v r2, l2 = (k, ⟨s.name, .func v⟩) :: r2 := by
  simp only [loadShops] at h
  cases hl : load_check_fn s with
  | error e =>
    rw [hl] at h
    cases h
  | ok s2 =>
    rw [hl] at h
    obtain ⟨hn, v, hv⟩ := load_check_fn_ok s s2 hl
    refine ⟨v, (loadShops rest).1, ?_⟩
    have : l2 = (k, s2) :: (loadShops rest).1 := by
      have := congrArg Prod.fst h
      simpa using this.symm
    rw [this]
    have hs2 : s2 = ⟨s.name, .func v⟩ := by
      cases s2
      simp_all
    rw [hs2]

theorem loadShops_func_head (k nm : String) (v : GlobalValue) (rest : List (String × Shop)) :
    loadShops ((k, ⟨nm, .func v⟩) :: rest) = ((k, ⟨nm, .func v⟩) :: rest, some .valueError) := by
  simp [loadShops, load_check_fn, globalsGet]

theorem main_load_error (env : Env) (c : Config) (l2 : List (String × Shop)) (e : PyError)
    (h : loadShops c.shops = (l2, some e)) :
    main env c = { output := "", error := some e, config := { c with shops := l2 } } := by
  simp [main, h]

theorem main_load_ok (env : Env) (c : Config) (l2 : List (String × Shop))
    (h : loadShops c.shops = (l2, none)) :
    main env c = { output := (runProducts env l2 c.products "").1,
                   error := (runProducts env l2 c.products "").2,
                   config := { c with shops := l2 } } := by
  simp [main, h]

/-! Claim theorems. -/

/-- C1: in the reporting loop, whenever a shop result carries a regular
price, the invariant regular greater than current is enforced by a hard
assertion before the statt part is printed: if the regular price is not
strictly greater, the run aborts for that item with an assertion failure
and the output gains only the plain price line part, never a statt part;
if it is strictly greater, no assertion fires and the loop continues with
the statt part printed. -/
theorem c1_reporter_invariant_assertion (env : Env) (shops : List (String × Shop))
    (shopId url : String) (rest : List (String × String)) (out : String)
    (shop : Shop) (c r : Dec)
    (hshop : shops.lookup shopId = some shop)
    (hcall : callField env shop.check_func url = .ok (c, some r)) :
    (¬ r > c → runShops env shops ((shopId, url) :: rest) out =
        (out ++ ("  " ++ shop.name ++ ": " ++ format2f c ++ " CHF"), some .assertionError)) ∧
    (r > c → runShops env shops ((shopId, url) :: rest) out =
        runShops env shops rest
          (out ++ ("  " ++ shop.name ++ ": " ++ format2f c ++ " CHF") ++ " (statt " ++
            format2f r ++ " CHF)\n")) := by
  constructor
  · intro h
    simp only [runShops, hshop, hcall]
    rw [if_neg h]
  · intro h
    simp only [runShops, hshop, hcall]
    rw [if_pos h]

theorem c1_witness :
    runShops (envDoc galaxusDocBad) demoShops [("s1", demoUrl)] "" =
      ("  Galaxus: 49.00 CHF", some .assertionError) ∧
    runShops (envDoc galaxusDoc) demoShops [("s1", demoUrl)] "" =
      ("  Galaxus: 49.00 CHF (statt 72.40 CHF)\n", none) := by
  constructor
  · have h := (c1_reporter_invariant_assertion (envDoc galaxusDocBad) demoShops "s1" demoUrl
      [] "" ⟨"Galaxus", .func (.checkFn .galaxus)⟩ ⟨49, 0⟩ ⟨20, 0⟩ (by decide) (by decide)).1
      (by decide)
    exact h.trans (by decide)
  · have h := (c1_reporter_invariant_assertion (envDoc galaxusDoc) demoShops "s1" demoUrl
      [] "" ⟨"Galaxus", .func (.checkFn .galaxus)⟩ ⟨49, 0⟩ ⟨724, 1⟩ (by decide) (by decide)).2
      (by decide)
    exact h.trans (by decide)

/-- C2 counterexample: the resolution of a check_func name is a lookup in
the module globals, which hold more than the five extractors; the name
fetch, which is not an extractor name, resolves successfully, so
resolution does not succeed exactly on the closed five-name set. -/
theorem c2_counterexample :
    (load_check_fn ⟨"AnyShop", .name "fetch"⟩).isOk = true ∧
    "fetch" ∉ extractorNames := by decide

/-- C2 amended: resolving a check_func name succeeds exactly for the names
bound in the module globals (the five extractors, but also every other
module-level binding such as fetch or USER_AGENT); for a name not bound
there, the run aborts during registry construction with the ValueError of
the loader, before any output and without consulting the fetch
environment at all (so before any network activity and before any
extractor is invoked). -/
theorem c2_amended_globals_resolution :
    (∀ s n, (load_check_fn ⟨n, .name s⟩).isOk = true ↔
      (moduleGlobals.lookup s).isSome = true) ∧
    (∀ env env2 c l2 e, loadShops c.shops = (l2, some e) →
      main env c = main env2 c ∧ (main env c).output = "" ∧
        (main env c).error = some e) := by
  constructor
  · intro s n
    unfold load_check_fn globalsGet
    cases h : moduleGlobals.lookup s <;> simp [h, Except.isOk, Except.toBool]
  · intro env env2 c l2 e h
    rw [main_load_error env c l2 e h, main_load_error env2 c l2 e h]
    exact ⟨rfl, rfl, rfl⟩

theorem c2_witness :
    main (envDoc galaxusDoc) configBadName = main env304 configBadName ∧
    (main (envDoc galaxusDoc) configBadName).output = "" ∧
    (main (envDoc galaxusDoc) configBadName).error = some .valueError :=
  c2_amended_globals_resolution.2 (envDoc galaxusDoc) env304 configBadName
    configBadName.shops .valueError (by decide)

/-- C3: for every fetched document in which the meta element with property
product:price:amount is found with a parsable content attribute, if the
meta element with property og:price:standard_amount is also found with a
parsable content attribute then check_galaxus returns the pair of both
parsed prices with the regular price present, and if the standard-amount
meta element is absent it returns the current price with the regular price
absent. -/
theorem c3_check_galaxus_standard_amount (env : Env) (url : String)
    (doc m : Node) (c : String) (qc : Dec)
    (hf : fetch env url = .ok doc)
    (hm : doc.find (some "meta") [.attrEq "property" "product:price:amount"] = some m)
    (hc : m.getAttr "content" = some c)
    (hqc : parseFloat c = some qc) :
    (∀ m2 r qr,
      doc.find (some "meta") [.attrEq "property" "og:price:standard_amount"] = some m2 →
      m2.getAttr "content" = some r → parseFloat r = some qr →
      check_galaxus env url = .ok (qc, some qr)) ∧
    (doc.find (some "meta") [.attrEq "property" "og:price:standard_amount"] = none →
      check_galaxus env url = .ok (qc, none)) := by
  constructor
  · intro m2 r qr h1 h2 h3
    simp [check_galaxus, hf, hm, hc, hqc, h1, h2, h3]
  · intro h1
    simp [check_galaxus, hf, hm, hc, hqc, h1]

theorem c3_witness :
    check_galaxus (envDoc galaxusDoc) demoUrl = .ok (⟨49, 0⟩, some ⟨724, 1⟩) ∧
    check_galaxus (envDoc galaxusDocNoStd) demoUrl = .ok (⟨49, 0⟩, none) := by
  constructor
  · exact (c3_check_galaxus_standard_amount (envDoc galaxusDoc) demoUrl galaxusDoc
      (.elem "meta" [("content", "49"), ("property", "product:price:amount")] [])
      "49" ⟨49, 0⟩ rfl rfl rfl (by decide)).1
      (.elem "meta" [("content", "72.4"), ("property", "og:price:standard_amount")] [])
      "72.4" ⟨724, 1⟩ rfl rfl (by decide)
  · exact (c3_check_galaxus_standard_amount (envDoc galaxusDocNoStd) demoUrl galaxusDocNoStd
      (.elem "meta" [("content", "49"), ("property", "product:price:amount")] [])
      "49" ⟨49, 0⟩ rfl rfl rfl (by decide)).2 rfl

/-- C6: in the intersport extractor, whenever the amount element is found
but the part of its text before the non-breaking-space separator is not
exactly CHF, the price helper fails with the assertion failure, never
returning a parsed number. -/
theorem c6_currency_assertion (el a : Node)
    (hfind : el.find none [.hasClass "amount"] = some a)
    (hpre : (splitOnChar nbsp a.getText.toList).headD [] ≠ "CHF".toList) :
    getPrice el = .error .assertionError := by
  simp only [getPrice, hfind]
  rw [if_pos hpre]

theorem c6_witness : getPrice badCurrencyElem = .error .assertionError :=
  c6_currency_assertion badCurrencyElem badAmountSpan rfl (by decide)

/-- C7 counterexample: a response with the non-2xx status 304 does not
make fetch raise; both fetch modes return the body successfully, so not
every non-2xx status is treated as fatal. -/
theorem c7_counterexample :
    (fetch env304 demoUrl).isOk = true ∧ (fetchRaw env304 demoUrl).isOk = true ∧
    ((env304 demoUrl).status < 200 ∨ 300 ≤ (env304 demoUrl).status) := by decide

/-- C7 amended: a fetch raises exactly when the response status lies in
the 4xx or 5xx range (the behaviour of raise_for_status); statuses below
400, including non-2xx informational and redirect statuses, are returned
as success with the body. -/
theorem c7_amended_fetch_status (env : Env) (url : String) :
    ((fetch env url).isOk = false ↔
      400 ≤ (env url).status ∧ (env url).status < 600) ∧
    ((fetchRaw env url).isOk = false ↔
      400 ≤ (env url).status ∧ (env url).status < 600) := by
  constructor
  · show (if 400 ≤ (env url).status ∧ (env url).status < 600 then
        Except.error (ε := PyError) (.httpError (env url).status)
      else Except.ok (env url).dom).isOk = false ↔ _
    split
    · simpa [Except.isOk, Except.toBool] using ‹_›
    · simp [Except.isOk, Except.toBool, ‹_›]
  · show (if 400 ≤ (env url).status ∧ (env url).status < 600 then
        Except.error (ε := PyError) (.httpError (env url).status)
      else Except.ok (env url).body).isOk = false ↔ _
    split
    · simpa [Except.isOk, Except.toBool] using ‹_›
    · simp [Except.isOk, Except.toBool, ‹_›]

/-- C4: for every fetched document with a summary and price container, if
the price container has a del direct child and an ins direct child whose
amount texts are CHF, the non-breaking space and an amount, the intersport
extractor returns the ins amount as current and the del amount as regular;
if instead no del and ins pair of direct children exists, the amount found
under the price container itself is returned as current with the regular
price absent. -/
theorem c4_check_intersport (env : Env) (url : String) (doc summary prices : Node)
    (hf : fetch env url = .ok doc)
    (hs : doc.find (some "div") [.hasClass "entry-summary"] = some summary)
    (hp : summary.find none [.hasClass "price"] = some prices) :
    (∀ d i da ia aD aI qD qI,
      prices.findChild (some "del") [] = some d →
      prices.findChild (some "ins") [] = some i →
      d.find none [.hasClass "amount"] = some da →
      i.find none [.hasClass "amount"] = some ia →
      da.getText.toList = "CHF".toList ++ nbsp :: aD →
      ia.getText.toList = "CHF".toList ++ nbsp :: aI →
      (∀ x ∈ aD, x ≠ nbsp) → (∀ x ∈ aI, x ≠ nbsp) →
      parseFloat (String.mk aD) = some qD → parseFloat (String.mk aI) = some qI →
      check_intersport env url = .ok (qI, some qD)) ∧
    (∀ a aS q,
      (prices.findChild (some "del") [] = none ∨
        prices.findChild (some "ins") [] = none) →
      prices.find none [.hasClass "amount"] = some a →
      a.getText.toList = "CHF".toList ++ nbsp :: aS →
      (∀ x ∈ aS, x ≠ nbsp) →
      parseFloat (String.mk aS) = some q →
      check_intersport env url = .ok (q, none)) := by
  constructor
  · intro d i da ia aD aI qD qI h1 h2 h3 h4 h5 h6 h7 h8 h9 h10
    have hgc : getPrice i = .ok qI := getPrice_chf i ia aI qI h4 h6 h8 h10
    have hgd : getPrice d = .ok qD := getPrice_chf d da aD qD h3 h5 h7 h9
    simp only [check_intersport, hf, hs, hp, h1, h2, hgc, hgd]
  · intro a aS q hd hfa htext hno hq
    have hg : getPrice prices = .ok q := getPrice_chf prices a aS q hfa htext hno hq
    rcases hd with hd | hd
    · simp only [check_intersport, hf, hs, hp, hd, hg]
    · cases hdel : prices.findChild (some "del") [] with
      | none => simp only [check_intersport, hf, hs, hp, hdel, hg]
      | some d0 => simp only [check_intersport, hf, hs, hp, hdel, hd, hg]

theorem c4_witness :
    check_intersport (envDoc interDocRebate) demoUrl = .ok (⟨2999, 1⟩, some ⟨379, 0⟩) ∧
    check_intersport (envDoc interDocSingle) demoUrl = .ok (⟨29, 0⟩, none) := by
  constructor
  · exact (c4_check_intersport (envDoc interDocRebate) demoUrl interDocRebate
      summaryRebate pricesRebate rfl rfl rfl).1
      delNodeRebate insNodeRebate (amountSpan "379.00") (amountSpan "299.90")
      "379.00".toList "299.90".toList ⟨379, 0⟩ ⟨2999, 1⟩
      rfl rfl rfl rfl (by decide) (by decide) (by decide) (by decide)
      (by decide) (by decide)
  · exact (c4_check_intersport (envDoc interDocSingle) demoUrl interDocSingle
      summarySingle pricesSingle rfl rfl rfl).2
      (amountSpan "29.00") "29.00".toList ⟨29, 0⟩
      (Or.inl rfl) rfl (by decide) (by decide) (by decide)

/-- C5: the raw-text scanner yields the pair 629.90 and 899.90 on a text
with the promo line CHF 629.90 and the base line CHF 899.90; on a text
whose base line holds the empty string (which does not match the line
pattern) together with the promo line it yields 629.90 with the base
absent; and whenever no line of the fetched text matches with the promo
key, the extractor fails rather than returning a result. -/
theorem c5_check_transa :
    check_transa (envRaw transaPromoBase) demoUrl = .ok (⟨6299, 1⟩, some ⟨8999, 1⟩) ∧
    check_transa (envRaw transaPromoEmptyBase) demoUrl = .ok (⟨6299, 1⟩, none) ∧
    (∀ env url t, fetchRaw env url = .ok t →
      (∀ line ∈ splitLines t, (matchPriceLine line).map Prod.fst ≠ some "promo") →
      (check_transa env url).isOk = false) := by
  refine ⟨by decide, by decide, ?_⟩
  intro env url t hf hnp
  simp only [check_transa, hf]
  cases hb : buildPrices ((splitLines t).filterMap matchPriceLine) [] with
  | error e => simp [Except.isOk, Except.toBool]
  | ok d =>
    have hkeys : ∀ p ∈ (splitLines t).filterMap matchPriceLine, p.1 ≠ "promo" := by
      intro p hp e
      obtain ⟨line, hline, hm⟩ := List.mem_filterMap.mp hp
      exact hnp line hline (by rw [hm]; simp [e])
    have hlook := buildPrices_no_promo _ [] d hkeys hb
    simp only [List.lookup] at hlook
    simp [hlook, Except.isOk, Except.toBool]

theorem c5_witness : (check_transa (envRaw transaNoPromo) demoUrl).isOk = false :=
  c5_check_transa.2.2 (envRaw transaNoPromo) demoUrl transaNoPromo rfl (by decide)

/-- C8 counterexample: running main on the one-shop configuration changes
the configuration object: the loader overwrites the check_func field of
the shop entry in place, so the configuration after the run differs from
its loaded value. -/
theorem c8_counterexample :
    (main (envDoc galaxusDoc) config1).config ≠ config1 := by decide

/-- C8 amended: a run leaves the product entries and the shop identifiers
and display names of the configuration unchanged, but registry
construction rewrites each shop entry in place, replacing the configured
check_func name by the resolved function value. -/
theorem c8_amended_config_mutation (env : Env) (c : Config) :
    ((main env c).config).products = c.products ∧
    ((main env c).config).shops.map (fun kv => (kv.1, kv.2.name)) =
      c.shops.map (fun kv => (kv.1, kv.2.name)) := by
  cases hl : loadShops c.shops with
  | mk l err =>
    cases err with
    | none =>
      rw [main_load_ok env c l hl]
      refine ⟨rfl, ?_⟩
      have h := loadShops_names c.shops
      rw [hl] at h
      simpa using h
    | some e =>
      rw [main_load_error env c l e hl]
      refine ⟨rfl, ?_⟩
      have h := loadShops_names c.shops
      rw [hl] at h
      simpa using h

/-- C9 counterexample: running main twice in succession, with the same
fetch responses, on the same configuration value does not produce
identical output: the first run succeeds and prints the report, while the
second run receives the configuration mutated by the first and produces
different (empty) output. -/
theorem c9_counterexample :
    (main (envDoc galaxusDoc) ((main (envDoc galaxusDoc) config1).config)).output ≠
      (main (envDoc galaxusDoc) config1).output ∧
    (main (envDoc galaxusDoc) config1).error = none := by decide

/-- C9 amended: after a first successful run on a configuration with at
least one shop, a second run on the same configuration object fails
during registry construction with the ValueError of the loader (the
check_func fields now hold function values, which the string-keyed
globals lookup cannot resolve) and prints nothing.  Identical output on
repeated runs holds only for fresh copies of the configuration. -/
theorem c9_amended_second_run_fails (env env2 : Env) (c : Config)
    (hne : c.shops ≠ []) (hok : (main env c).error = none) :
    (main env2 ((main env c).config)).output = "" ∧
    (main env2 ((main env c).config)).error = some .valueError := by
  cases hl : loadShops c.shops with
  | mk l err =>
    cases err with
    | some e =>
      rw [main_load_error env c l e hl] at hok
      simp at hok
    | none =>
      have hcfg : (main env c).config = { c with shops := l } := by
        rw [main_load_ok env c l hl]
      rw [hcfg]
      cases hcs : c.shops with
      | nil => exact absurd hcs hne
      | cons ks rest =>
        obtain ⟨k, s⟩ := ks
        rw [hcs] at hl
        obtain ⟨v, r2, hl2⟩ := loadShops_success_cons k s rest l hl
        have hload2 : loadShops ({ c with shops := l } : Config).shops =
            (l, some .valueError) := by
          show loadShops l = (l, some PyError.valueError)
          rw [hl2]
          exact loadShops_func_head k s.name v r2
        rw [main_load_error env2 _ l .valueError hload2]
        exact ⟨rfl, rfl⟩

theorem c9_witness :
    (main (envDoc galaxusDoc) ((main (envDoc galaxusDoc) config1).config)).output = "" ∧
    (main (envDoc galaxusDoc) ((main (envDoc galaxusDoc) config1).config)).error =
      some .valueError :=
  c9_amended_second_run_fails (envDoc galaxusDoc) (envDoc galaxusDoc) config1
    (by decide) (by decide)

/-- C10: for a product with one shop result, the reporter prints the
Checking header, then exactly one line with the display name and the
current price to two decimals, with the statt part carrying the regular
price to two decimals exactly when a regular price is present, then the
blank separator line; and the prices 49 and 72.4 format as 49.00 and
72.40. -/
theorem c10_report_line_format (env : Env) (shops : List (String × Shop))
    (sid url pname out : String) (shop : Shop) (c : Dec) (rq : Option Dec)
    (hs : shops.lookup sid = some shop)
    (hc : callField env shop.check_func url = .ok (c, rq)) :
    (rq = none → runProducts env shops [⟨pname, [(sid, url)]⟩] out =
      (out ++ "Checking " ++ pname ++ ":\n" ++ "  " ++ shop.name ++ ": " ++
        format2f c ++ " CHF" ++ "\n" ++ "\n", none)) ∧
    (∀ r, rq = some r → r > c → runProducts env shops [⟨pname, [(sid, url)]⟩] out =
      (out ++ "Checking " ++ pname ++ ":\n" ++ "  " ++ shop.name ++ ": " ++
        format2f c ++ " CHF" ++ " (statt " ++ format2f r ++ " CHF)\n" ++ "\n", none)) ∧
    format2f ⟨49, 0⟩ = "49.00" ∧ format2f ⟨724, 1⟩ = "72.40" := by
  refine ⟨?_, ?_, by decide, by decide⟩
  · intro h
    subst h
    simp only [runProducts, runShops, hs, hc]
    simp only [string_append_assoc]
  · intro r h hr
    subst h
    simp only [runProducts, runShops, hs, hc]
    rw [if_pos hr]
    simp only [runProducts, runShops]
    simp only [string_append_assoc]

theorem c10_witness :
    runProducts (envDoc galaxusDoc) demoShops [⟨"Widget", [("s1", demoUrl)]⟩] "" =
      ("Checking Widget:\n  Galaxus: 49.00 CHF (statt 72.40 CHF)\n\n", none) ∧
    runProducts (envDoc galaxusDocNoStd) demoShops [⟨"Widget", [("s1", demoUrl)]⟩] "" =
      ("Checking Widget:\n  Galaxus: 49.00 CHF\n\n", none) := by
  constructor
  · have h := (c10_report_line_format (envDoc galaxusDoc) demoShops "s1" demoUrl "Widget" ""
      ⟨"Galaxus", .func (.checkFn .galaxus)⟩ ⟨49, 0⟩ (some ⟨724, 1⟩)
      (by decide) (by decide)).2.1 ⟨724, 1⟩ rfl (by decide)
    exact h.trans (by decide)
  · have h := (c10_report_line_format (envDoc galaxusDocNoStd) demoShops "s1" demoUrl "Widget" ""
      ⟨"Galaxus", .func (.checkFn .galaxus)⟩ ⟨49, 0⟩ none
      (by decide) (by decide)).1 rfl
    exact h.trans (by decide)

end PriceAlert
